import Mathlib

/-!
Verification of the route-optimization core of the Logistics repository.

The definitions below are a shallow embedding of the JavaScript source:

* `calculateDistance`, `calculateFallbackMatrix` — the haversine fallback
  distance provider (backend/controllers/optimization.js, i.e.
  src/unnamed/part_001 lines 123–147 and 519–539).  JS floats are modelled
  as real numbers; a JS value that is non-numeric or `NaN` is modelled as
  `Option.none`.
* `selectBest`, `greedyRoute`, `annotateAux`, `buildLoop`, `runORTools` —
  the greedy capacity-constrained route builder and route annotator
  (`runORToolsOptimization`, part_001 lines 318–517).  Exact rational
  arithmetic (`ℚ`) stands in for JS numbers; the distance/duration matrices
  are passed in as functions of the location indices, exactly as the code
  receives them from the (external, network-backed) matrix provider.
  The JS `while` loop terminates because each iteration assigns one more
  non-depot location; we pass `nonDepot.length` as explicit fuel, which is
  exactly the maximal number of iterations the JS loop can perform.
* `clampDelay` — the numeric clamp of `analyzeIncidentImpact`
  (backend/services/trafficAI.js lines 171–177).
* `createOptimization`, `rerouteOptimization`, `resolveIncident` — the
  three request handlers (part_001 lines 184–295, 574–698, 700–771),
  restricted to their pure state-transition content: persistence, response
  population and the network-only geometry provider are outside the core.
  The incident-analysis collaborator is a black box; its numeric output is
  a parameter of the handlers that consume it.
-/

/-- JS `Math.round` on the (non-negative in all reachable states) rational
cumulative times: round half up. -/
def jsRound (q : ℚ) : ℤ := ⌊q + 1/2⌋

/-- JS `parseFloat(x.toFixed(2))`: round to two decimal places. -/
def round2 (q : ℚ) : ℚ := (⌊q * 100 + 1/2⌋ : ℚ) / 100

/-- JS `String.prototype.padStart(2, '0')` as applied to a stringified minute. -/
def padStart2 (s : String) : String :=
  if s.length = 0 then "00" else if s.length = 1 then "0" ++ s else s

/-- The ETA formatting block of `runORToolsOptimization`
(part_001 lines 477–482), for `etaMinutes` = departure minutes + rounded
cumulative minutes.  `Math.floor(x / 60)` is `Int.fdiv`, JS `%` is
`Int.tmod`. -/
def formatEta (etaMinutes : ℤ) : String :=
  let etaHour := (etaMinutes.fdiv 60).tmod 24
  let etaMinute := etaMinutes.tmod 60
  let displayHour := if 12 < etaHour then etaHour - 12 else if etaHour = 0 then 12 else etaHour
  let ampm := if 12 ≤ etaHour then "PM" else "AM"
  toString displayHour ++ ":" ++ padStart2 (toString etaMinute) ++ " " ++ ampm

/-- Modelled from the spec: the arrival-estimate rendering of §4.4 —
"minutes-of-day modulo 1440, rendered as a 12-hour clock string with AM/PM,
hour 0 displayed as 12".  Used to compare the code's `formatEta` against
the spec's words. -/
def specClock (m : Nat) : String :=
  let md := m % 1440
  let h := md / 60
  let mm := md % 60
  let displayHour := if h = 0 then 12 else if h ≤ 12 then h else h - 12
  let ampm := if h < 12 then "AM" else "PM"
  toString displayHour ++ ":" ++ padStart2 (toString mm) ++ " " ++ ampm

theorem padStart2_eq (s : String) :
    padStart2 s = if s.length = 0 then "00" else if s.length = 1 then "0" ++ s else s := rfl

/-- On non-negative inputs the code's ETA rendering agrees with the spec's
"modulo 1440, hour 0 as 12" rendering. -/
theorem formatEta_eq_specClock (n : Nat) : formatEta (n : ℤ) = specClock n := by
  have hfd : ((n : ℤ).fdiv 60) = ((n / 60 : Nat) : ℤ) := by
    rw [Int.fdiv_eq_ediv _ (by norm_num)]; omega
  have ht1 : (((n / 60 : Nat) : ℤ)).tmod 24 = ((n / 60 % 24 : Nat) : ℤ) := by
    rw [Int.tmod_eq_emod (by positivity) (by norm_num)]; omega
  have ht2 : ((n : ℤ)).tmod 60 = ((n % 60 : Nat) : ℤ) := by
    rw [Int.tmod_eq_emod (by positivity) (by norm_num)]; omega
  have htos : ∀ k : Nat, toString ((k : ℤ)) = toString k := fun _ => rfl
  unfold formatEta specClock
  dsimp only
  rw [hfd, ht1, ht2]
  have h1 : n / 60 % 24 = n % 1440 / 60 := by omega
  have h2 : n % 60 = n % 1440 % 60 := by omega
  rw [h1, h2, htos]
  set h := n % 1440 / 60 with hh
  by_cases h0 : h = 0
  · rw [h0]
    norm_num
    rfl
  · by_cases h12 : h ≤ 12
    · have hn12 : ¬ (12 : ℤ) < (h : ℤ) := by exact_mod_cast by omega
      have hne : ((h : ℤ) ≠ 0) := by exact_mod_cast h0
      rw [if_neg hn12, if_neg hne, htos]
      by_cases he : h = 12
      · rw [he]; norm_num
      · have hlt' : ¬ (12 : ℤ) ≤ (h : ℤ) := by exact_mod_cast by omega
        rw [if_neg hlt', if_neg h0, if_pos h12, if_pos (by omega : h < 12)]
    · have hlt : (12 : ℤ) < (h : ℤ) := by exact_mod_cast by omega
      rw [if_pos hlt, if_pos (le_of_lt hlt)]
      have hsub : (h : ℤ) - 12 = ((h - 12 : Nat) : ℤ) := by omega
      rw [hsub, htos, if_neg h0, if_neg h12, if_neg (by omega : ¬ h < 12)]

/-- A delivery location as the optimization controller sees it after
population: Mongo identity (modelled as `Nat`), display name, coordinate,
demand and the depot flag. -/
structure Location where
  id : Nat
  name : String
  latitude : ℚ
  longitude : ℚ
  demand : ℚ
  isDepot : Bool
deriving DecidableEq, Repr

instance : Inhabited Location := ⟨⟨0, "", 0, 0, 0, false⟩⟩

/-- A vehicle record; `count` replicates it into identical slots. -/
structure Vehicle where
  id : Nat
  name : String
  capacity : ℚ
  count : Nat
deriving DecidableEq, Repr

/-- One expanded vehicle slot (part_001 lines 349–361). -/
structure VehicleSlot where
  vid : Nat
  vname : String
  capacity : ℚ
deriving DecidableEq, Repr

/-- `const count = v.count || 1` — JS `0` is falsy. -/
def expandVehicles (vs : List Vehicle) : List VehicleSlot :=
  vs.flatMap fun v =>
    List.replicate (if v.count = 0 then 1 else v.count) ⟨v.id, v.name, v.capacity⟩

/-- A stop of a built route, with the fields `runORToolsOptimization`
stores (part_001 lines 369–381, 410–421, 430–441, 470–482). -/
structure Stop where
  locationId : Nat
  locationName : String
  latitude : ℚ
  longitude : ℚ
  demand : ℚ
  order : Nat
  cumulativeDistance : ℚ
  distanceFromPrev : ℚ
  arrivalTime : ℤ
  eta : String
deriving DecidableEq, Repr

/-- A built route (part_001 lines 497–509).  The Mapbox geometry and the
`usingRealRoadData` flag are produced by network calls outside the core
and carry no information the claims mention, so they are not modelled. -/
structure Route where
  vehicle : Nat
  vehicleName : String
  stops : List Stop
  distance : ℚ
  duration : ℚ
  totalCapacity : ℚ
deriving DecidableEq, Repr

/-- An optimization run record (backend/models/Optimization.js), restricted
to the fields the incident state machine reads and writes. -/
structure Run where
  vehicles : List Vehicle
  locations : List Location
  routes : List Route
  totalDistance : ℚ
  totalDuration : ℚ
  startHour : Nat
  startMinute : Nat
  isIncidentActive : Bool
  incidentLocation : Option (ℚ × ℚ)
  originalRoutes : Option (List Route)
deriving DecidableEq, Repr

/-- Per-stop service time (part_001 line 10). -/
def SERVICE_TIME_MINUTES : ℚ := 15

/-- Fallback speed in km/h (part_001 line 8). -/
def SPEED_KMH : ℝ := 60

/-- Fallback road-circuity factor (part_001 line 9). -/
def ROAD_FACTOR : ℝ := 1.4

/-- The `locationIndexMap` of part_001 lines 341–344: index of a location id
in the stable location ordering. -/
def indexOfLoc (locations : List Location) (lid : Nat) : Nat :=
  locations.findIdx (fun l => l.id == lid)

/-- The nearest-eligible-location scan of part_001 lines 388–406: among the
not-yet-assigned non-depot locations whose demand fits the remaining
capacity, the first one attaining the smallest matrix distance from the
current position (strict `<`, so ties go to the earlier list entry). -/
def selectBest (dist : Nat → Nat → ℚ) (idxOf : Nat → Nat) (currentIndex : Nat)
    (assigned : List Nat) (remaining : ℚ) (nonDepot : List Location) :
    Option (Location × Nat) :=
  let step : Option (Location × Nat × ℚ) → Location → Option (Location × Nat × ℚ) :=
    fun acc loc =>
      if assigned.contains loc.id then acc
      else if remaining < loc.demand then acc
      else
        let locIndex := idxOf loc.id
        let d := dist currentIndex locIndex
        match acc with
        | none => some (loc, locIndex, d)
        | some (b, bi, bd) => if d < bd then some (loc, locIndex, d) else some (b, bi, bd)
  (nonDepot.foldl step none).map (fun p => (p.1, p.2.1))

/-- The greedy `while (true)` loop of part_001 lines 387–426.  Each
iteration assigns one previously unassigned non-depot location, so the loop
runs at most `nonDepot.length` times; that bound is passed as fuel.
Returns (chosen locations in visiting order, assigned ids, remaining
capacity). -/
def greedyRoute (dist : Nat → Nat → ℚ) (idxOf : Nat → Nat) (nonDepot : List Location) :
    Nat → List Nat → ℚ → Nat → List Location → List Location × List Nat × ℚ
  | 0, assigned, remaining, _, chosen => (chosen, assigned, remaining)
  | fuel + 1, assigned, remaining, currentIndex, chosen =>
    match selectBest dist idxOf currentIndex assigned remaining nonDepot with
    | none => (chosen, assigned, remaining)
    | some (best, bestIndex) =>
        greedyRoute dist idxOf nonDepot fuel (best.id :: assigned)
          (remaining - best.demand) bestIndex (chosen ++ [best])

/-- The annotation loop of part_001 lines 443–483: walks the raw stop
sequence computing incremental/cumulative distance and time, the rounded
arrival offset and the formatted ETA.  `len` is the stop count of the
closed route, `i` the position of the stop being processed. -/
def annotateAux (dist adjDur : Nat → Nat → ℚ) (idxOf : Nat → Nat) (startMin : ℤ) (len : Nat) :
    Nat → Nat → ℚ → ℚ → List Location → List Stop × ℚ × ℚ
  | _, _, cumDist, cumTime, [] => ([], cumDist, cumTime)
  | i, prevIdx, cumDist, cumTime, loc :: rest =>
    let currIdx := idxOf loc.id
    let distanceFromPrev : ℚ := if i = 0 then 0 else dist prevIdx currIdx
    let timeFromPrev : ℚ :=
      if i = 0 then 0
      else if i < len - 1 then adjDur prevIdx currIdx + SERVICE_TIME_MINUTES
      else adjDur prevIdx currIdx
    let cumDist' := cumDist + distanceFromPrev
    let cumTime' := cumTime + timeFromPrev
    let stop : Stop :=
      { locationId := loc.id, locationName := loc.name,
        latitude := loc.latitude, longitude := loc.longitude, demand := loc.demand,
        order := i,
        cumulativeDistance := round2 cumDist',
        distanceFromPrev := round2 distanceFromPrev,
        arrivalTime := jsRound cumTime',
        eta := formatEta (startMin + jsRound cumTime') }
    let r := annotateAux dist adjDur idxOf startMin len (i + 1) currIdx cumDist' cumTime' rest
    (stop :: r.1, r.2)

/-- Annotate a closed stop sequence from position 0 with zero accumulators
(the initial `prevIdx` is irrelevant: position 0 never reads it). -/
def annotate (dist adjDur : Nat → Nat → ℚ) (idxOf : Nat → Nat) (startMin : ℤ)
    (seq : List Location) : List Stop × ℚ × ℚ :=
  annotateAux dist adjDur idxOf startMin seq.length 0 0 0 0 seq

/-- Assemble the route record pushed at part_001 lines 497–509.  The raw
stop sequence is depot, chosen stops, closing depot; `extraDelay` is the
fixed incident delay when this is the first constructed route, else 0. -/
def buildRoute (dist adjDur : Nat → Nat → ℚ) (idxOf : Nat → Nat) (startMin : ℤ)
    (depot : Location) (vs : VehicleSlot) (chosen : List Location) (remaining : ℚ)
    (extraDelay : ℚ) : Route :=
  let seq := depot :: (chosen ++ [depot])
  let a := annotate dist adjDur idxOf startMin seq
  { vehicle := vs.vid, vehicleName := vs.vname, stops := a.1,
    distance := a.2.1, duration := (jsRound a.2.2 : ℚ) + extraDelay,
    totalCapacity := vs.capacity - remaining }

/-- The per-vehicle-slot loop of part_001 lines 367–514: run the greedy
route for each slot in order, close and push non-empty routes (adding the
fixed delay to the first constructed route only), and stop once every
non-depot location is assigned. -/
def buildLoop (dist adjDur : Nat → Nat → ℚ) (idxOf : Nat → Nat) (startMin : ℤ)
    (fixedDelayMinutes : ℚ) (depot : Location) (nonDepot : List Location) (depotIndex : Nat) :
    List VehicleSlot → List Nat → List Route → List Route
  | [], _, routes => routes
  | vs :: rest, assigned, routes =>
    let g := greedyRoute dist idxOf nonDepot nonDepot.length assigned vs.capacity depotIndex []
    let routes' :=
      if g.1.isEmpty then routes
      else
        routes ++ [buildRoute dist adjDur idxOf startMin depot vs g.1 g.2.2
          (if 0 < fixedDelayMinutes ∧ routes.isEmpty then fixedDelayMinutes else 0)]
    if g.2.1.length = nonDepot.length then routes'
    else buildLoop dist adjDur idxOf startMin fixedDelayMinutes depot nonDepot depotIndex
      rest g.2.1 routes'

/-- `runORToolsOptimization` (part_001 lines 318–517), given the distance
and duration matrices the (external) matrix provider produced.
`incidentLocation` is forwarded by the code only to the network-side
geometry provider and does not influence the computed routes. -/
def runORTools (dist dur : Nat → Nat → ℚ) (vehicles : List Vehicle) (locations : List Location)
    (depot : Location) (trafficMultiplier : ℚ) (startHour startMinute : Nat)
    (incidentLocation : Option (ℚ × ℚ)) (fixedDelayMinutes : ℚ) : List Route :=
  let _ := incidentLocation
  let nonDepot := locations.filter (fun l => l.id != depot.id)
  let adjDur := fun i j => dur i j * trafficMultiplier
  let idxOf := indexOfLoc locations
  let depotIndex := idxOf depot.id
  let startMin : ℤ := ((startHour * 60 + startMinute : Nat) : ℤ)
  buildLoop dist adjDur idxOf startMin fixedDelayMinutes depot nonDepot depotIndex
    (expandVehicles vehicles) [] []

/-- `totalDistance` aggregation (part_001 lines 247–253, 647–654, 733–740). -/
def sumDist (routes : List Route) : ℚ := (routes.map Route.distance).sum

/-- `totalDuration` aggregation (same lines as `sumDist`). -/
def sumDur (routes : List Route) : ℚ := (routes.map Route.duration).sum

/-- The numeric clamp `analyzeIncidentImpact` applies to the AI-returned
delay (trafficAI.js lines 171–177): values above 300 are capped to 300,
then values below 30 are replaced by 60 (the code's comment says
"Minimum 1 hour"). -/
def clampDelay (d : ℚ) : ℚ := if 300 < d then 300 else if d < 30 then 60 else d

/-- Modelled from the spec: "clamps into [30,300] minutes" (§6), i.e. the
mathematical clamp of the value to that interval.  Used to compare the
code's `clampDelay` against the spec's words. -/
def specClamp (d : ℚ) : ℚ := min 300 (max 30 d)

/-- The incident-location fallback of `rerouteOptimization` (part_001
lines 598–615): the midpoint of the depot and the first stop of
`optimization.routes[0]`, when that route exists and has at least two
stops. -/
def midpointFallback (routes : List Route) : Option (ℚ × ℚ) :=
  match routes with
  | [] => none
  | firstRoute :: _ =>
    match firstRoute.stops with
    | s0 :: s1 :: _ =>
        some ((s0.latitude + s1.latitude) / 2, (s0.longitude + s1.longitude) / 2)
    | _ => none

/-- part_001 lines 589–615: prefer the caller-supplied point when both of
its coordinates are JS-truthy (a coordinate of exactly 0 is falsy and
forces the fallback), else fall back to the route-0 midpoint. -/
def chooseIncidentLocation (supplied : Option (ℚ × ℚ)) (routes : List Route) :
    Option (ℚ × ℚ) :=
  match supplied with
  | some p => if p.1 ≠ 0 ∧ p.2 ≠ 0 then some p else midpointFallback routes
  | none => midpointFallback routes

/-- `createOptimization` (part_001 lines 184–295), reduced to its pure
state-transition content.  `withIncident` models the request carrying an
`incidentType` together with a numeric `affectedRouteIndex`; in that case
the code sets `trafficMultiplier = incidentAnalysis.trafficMultiplier || 1.5`,
and `analyzeIncidentImpact` (trafficAI.js) never returns a
`trafficMultiplier` field, so the multiplier is 1.5.  Request-shape
validation that no claim touches (name string, 100-location/20-vehicle
caps) is omitted. -/
def createOptimization (dist dur : Nat → Nat → ℚ) (vehicles : List Vehicle)
    (locations : List Location) (startHour startMinute : Nat) (withIncident : Bool) :
    Except String Run :=
  if vehicles.isEmpty then Except.error "At least one vehicle must be selected"
  else if locations.isEmpty then Except.error "At least one location must be selected"
  else
    match locations.find? (fun l => l.isDepot) with
    | none => Except.error "At least one location must be marked as a depot"
    | some depot =>
      let trafficMultiplier : ℚ := if withIncident then 3/2 else 1
      let routes := runORTools dist dur vehicles locations depot trafficMultiplier
        startHour startMinute none 0
      if routes.isEmpty then Except.error "OR-Tools optimization failed to generate routes"
      else Except.ok
        { vehicles := vehicles, locations := locations, routes := routes,
          totalDistance := sumDist routes, totalDuration := sumDur routes,
          startHour := startHour, startMinute := startMinute,
          isIncidentActive := false, incidentLocation := none, originalRoutes := none }

/-- `rerouteOptimization` (part_001 lines 574–698), the simulate-incident
handler.  `analysisFixedDelayMinutes` is the numeric output of the
incident-analysis collaborator (`incidentAnalysis.fixedDelayMinutes`), and
the `|| 60` default is the JS falsy-guard of line 624.
`affectedRouteIndex` is forwarded by the code only to the external
analysis collaborator; the handler itself never reads it.  Mirroring the
source, there is no `isIncidentActive` guard here. -/
def rerouteOptimization (dist dur : Nat → Nat → ℚ) (analysisFixedDelayMinutes : ℚ)
    (affectedRouteIndex : Nat) (suppliedIncidentLocation : Option (ℚ × ℚ)) (r : Run) :
    Except String Run :=
  let _ := affectedRouteIndex
  let finalIncidentLocation := chooseIncidentLocation suppliedIncidentLocation r.routes
  let fixedDelayMinutes : ℚ :=
    if analysisFixedDelayMinutes = 0 then 60 else analysisFixedDelayMinutes
  match r.locations.find? (fun l => l.isDepot) with
  | none => Except.error "Depot not found"
  | some depot =>
    let newRoutes := runORTools dist dur r.vehicles r.locations depot 1
      r.startHour r.startMinute finalIncidentLocation fixedDelayMinutes
    Except.ok { r with
      routes := newRoutes,
      totalDistance := sumDist newRoutes,
      totalDuration := sumDur newRoutes,
      isIncidentActive := true,
      incidentLocation := finalIncidentLocation,
      originalRoutes := some r.routes }

/-- `resolveIncident` (part_001 lines 700–771): rejected with a state error
when no incident is active (the handler returns before touching the run),
otherwise rebuilds the routes with no multiplier and no fixed delay and
clears the incident state. -/
def resolveIncident (dist dur : Nat → Nat → ℚ) (r : Run) : Except String Run :=
  if !r.isIncidentActive then Except.error "No active incident to resolve"
  else
    match r.locations.find? (fun l => l.isDepot) with
    | none => Except.error "Depot not found"
    | some depot =>
      let normalRoutes := runORTools dist dur r.vehicles r.locations depot 1
        r.startHour r.startMinute none 0
      Except.ok { r with
        routes := normalRoutes,
        totalDistance := sumDist normalRoutes,
        totalDuration := sumDur normalRoutes,
        isIncidentActive := false,
        incidentLocation := none,
        originalRoutes := none }

/-- Add `fd` to the duration of the first route, if any — the observable
effect of the fixed-delay branch at part_001 lines 489–492. -/
def bumpFirst (fd : ℚ) : List Route → List Route
  | [] => []
  | r :: rs => { r with duration := r.duration + fd } :: rs

instance {e a : Type} [DecidableEq e] [DecidableEq a] : DecidableEq (Except e a)
  | Except.ok x, Except.ok y => decidable_of_iff (x = y) (by simp)
  | Except.ok _, Except.error _ => isFalse (by simp)
  | Except.error _, Except.ok _ => isFalse (by simp)
  | Except.error x, Except.error y => decidable_of_iff (x = y) (by simp)

/-- Extract the run from a successful handler result (placeholder run on
error; used only to state closed concrete-input theorems). -/
def getRun (e : Except String Run) : Run :=
  match e with
  | Except.ok r => r
  | Except.error _ => ⟨[], [], [], 0, 0, 8, 0, false, none, none⟩

/-- A coordinate pair as the fallback matrix receives it; `none` models a
JS value that is not a number or is `NaN`. -/
structure RawCoord where
  latitude : Option ℚ
  longitude : Option ℚ
deriving DecidableEq

/-- JS `Math.atan2` on the real numbers. -/
noncomputable def atan2 (y x : ℝ) : ℝ :=
  if 0 < x then Real.arctan (y / x)
  else if x < 0 then
    if y < 0 then Real.arctan (y / x) - Real.pi else Real.arctan (y / x) + Real.pi
  else if 0 < y then Real.pi / 2
  else if y < 0 then -(Real.pi / 2)
  else 0

/-- The haversine great-circle distance of `calculateDistance`
(part_001 lines 528–538), Earth radius 6371 km, on valid coordinates. -/
noncomputable def haversineKm (lat1 lon1 lat2 lon2 : ℚ) : ℝ :=
  let R : ℝ := 6371
  let dLat : ℝ := ((lat2 : ℝ) - (lat1 : ℝ)) * Real.pi / 180
  let dLon : ℝ := ((lon2 : ℝ) - (lon1 : ℝ)) * Real.pi / 180
  let a : ℝ := Real.sin (dLat / 2) * Real.sin (dLat / 2) +
    Real.cos ((lat1 : ℝ) * Real.pi / 180) * Real.cos ((lat2 : ℝ) * Real.pi / 180) *
      Real.sin (dLon / 2) * Real.sin (dLon / 2)
  let c : ℝ := 2 * atan2 (Real.sqrt a) (Real.sqrt (1 - a))
  R * c

/-- `calculateDistance` (part_001 lines 520–539): any non-numeric or NaN
coordinate short-circuits to 0 (with a console warning) instead of
throwing; otherwise the haversine distance.  Totality of this function is
the embedding of "never throws". -/
noncomputable def calculateDistance (lat1 lon1 lat2 lon2 : Option ℚ) : ℝ :=
  match lat1, lon1, lat2, lon2 with
  | some a, some b, some c, some d => haversineKm a b c d
  | _, _, _, _ => 0

/-- The `roadDist` of one ordered pair in `calculateFallbackMatrix`
(part_001 lines 135–139): straight-line haversine distance times the road
factor. -/
noncomputable def fallbackRoadDist (locs : List RawCoord) (i j : Nat) : ℝ :=
  calculateDistance (locs.getD i ⟨none, none⟩).latitude (locs.getD i ⟨none, none⟩).longitude
    (locs.getD j ⟨none, none⟩).latitude (locs.getD j ⟨none, none⟩).longitude * ROAD_FACTOR

/-- `calculateFallbackMatrix` (part_001 lines 124–147): zero diagonal,
road-factored haversine distances off the diagonal, durations at the fixed
fallback speed. -/
noncomputable def calculateFallbackMatrix (locs : List RawCoord) :
    List (List ℝ) × List (List ℝ) :=
  let n := locs.length
  ((List.range n).map fun i => (List.range n).map fun j =>
      if i = j then 0 else fallbackRoadDist locs i j,
   (List.range n).map fun i => (List.range n).map fun j =>
      if i = j then 0 else fallbackRoadDist locs i j / SPEED_KMH * 60)

/-- Modelled from the spec (§4.4): cumulative distance along a stop-id
sequence — each step adds the matrix distance between consecutive stops. -/
def specCumDist (dist : Nat → Nat → ℚ) (idxOf : Nat → Nat) (ids : List Nat) : Nat → ℚ
  | 0 => 0
  | k + 1 => specCumDist dist idxOf ids k +
      dist (idxOf (ids.getD k 0)) (idxOf (ids.getD (k + 1) 0))

/-- Modelled from the spec (§4.4): cumulative service-adjusted time along a
stop-id sequence — each step adds the (adjusted) matrix duration between
consecutive stops plus the fixed 15-minute service time exactly when the
arriving stop is not the final (closing depot) stop. -/
def specCumTime (adjDur : Nat → Nat → ℚ) (idxOf : Nat → Nat) (ids : List Nat) : Nat → ℚ
  | 0 => 0
  | k + 1 => specCumTime adjDur idxOf ids k +
      adjDur (idxOf (ids.getD k 0)) (idxOf (ids.getD (k + 1) 0)) +
      (if k + 1 < ids.length - 1 then SERVICE_TIME_MINUTES else 0)

/-- The stop the annotator must produce at position `j` of sequence `seq`,
phrased with the spec-side cumulative functions. -/
def specStop (dist adjDur : Nat → Nat → ℚ) (idxOf : Nat → Nat) (startMin : ℤ)
    (seq : List Location) (j : Nat) : Stop :=
  let ids := seq.map Location.id
  let loc := seq.getD j default
  { locationId := loc.id, locationName := loc.name, latitude := loc.latitude,
    longitude := loc.longitude, demand := loc.demand, order := j,
    cumulativeDistance := round2 (specCumDist dist idxOf ids j),
    distanceFromPrev := round2
      (if j = 0 then 0 else dist (idxOf (ids.getD (j - 1) 0)) (idxOf (ids.getD j 0))),
    arrivalTime := jsRound (specCumTime adjDur idxOf ids j),
    eta := formatEta (startMin + jsRound (specCumTime adjDur idxOf ids j)) }

/-- Sum of the demands of a location list. -/
def demandSum (ls : List Location) : ℚ := (ls.map Location.demand).sum

theorem demandSum_append (a b : List Location) :
    demandSum (a ++ b) = demandSum a + demandSum b := by
  simp [demandSum]

/-- Whatever `selectBest` returns was an eligible candidate: a member of
the candidate list, unassigned, with demand within the remaining capacity,
indexed by `idxOf`. -/
theorem selectBest_spec (dist : Nat → Nat → ℚ) (idxOf : Nat → Nat) (currentIndex : Nat)
    (assigned : List Nat) (remaining : ℚ) (nonDepot : List Location)
    (l : Location) (li : Nat)
    (h : selectBest dist idxOf currentIndex assigned remaining nonDepot = some (l, li)) :
    l ∈ nonDepot ∧ assigned.contains l.id = false ∧ l.demand ≤ remaining ∧
      li = idxOf l.id := by
  unfold selectBest at h
  dsimp only at h
  set step : Option (Location × Nat × ℚ) → Location → Option (Location × Nat × ℚ) :=
    fun acc loc =>
      if assigned.contains loc.id then acc
      else if remaining < loc.demand then acc
      else
        match acc with
        | none => some (loc, idxOf loc.id, dist currentIndex (idxOf loc.id))
        | some (b, bi, bd) =>
            if dist currentIndex (idxOf loc.id) < bd then
              some (loc, idxOf loc.id, dist currentIndex (idxOf loc.id))
            else some (b, bi, bd)
    with hstep
  have key : ∀ (xs : List Location) (acc : Option (Location × Nat × ℚ)),
      (∀ x ∈ xs, x ∈ nonDepot) →
      (∀ b bi bd, acc = some (b, bi, bd) →
        b ∈ nonDepot ∧ assigned.contains b.id = false ∧ b.demand ≤ remaining ∧
          bi = idxOf b.id) →
      (∀ b bi bd, xs.foldl step acc = some (b, bi, bd) →
        b ∈ nonDepot ∧ assigned.contains b.id = false ∧ b.demand ≤ remaining ∧
          bi = idxOf b.id) := by
    intro xs
    induction xs with
    | nil => intro acc _ hacc b bi bd hres; exact hacc b bi bd hres
    | cons x xs ih =>
      intro acc hmem hacc b bi bd hres
      rw [List.foldl_cons] at hres
      refine ih (step acc x) (fun y hy => hmem y (List.mem_cons_of_mem x hy)) ?_ b bi bd hres
      intro c ci cd hc
      rw [hstep] at hc
      simp only at hc
      by_cases h1 : assigned.contains x.id
      · rw [if_pos h1] at hc; exact hacc c ci cd hc
      · rw [if_neg h1] at hc
        by_cases h2 : remaining < x.demand
        · rw [if_pos h2] at hc; exact hacc c ci cd hc
        · rw [if_neg h2] at hc
          match hacc' : acc with
          | none =>
            simp only [Option.some.injEq, Prod.mk.injEq] at hc
            obtain ⟨rfl, rfl, -⟩ := hc
            exact ⟨hmem x (List.mem_cons_self x xs), by simpa using h1, le_of_not_lt h2, rfl⟩
          | some (b', bi', bd') =>
            simp only at hc
            by_cases h3 : dist currentIndex (idxOf x.id) < bd'
            · rw [if_pos h3] at hc
              simp only [Option.some.injEq, Prod.mk.injEq] at hc
              obtain ⟨rfl, rfl, -⟩ := hc
              exact ⟨hmem x (List.mem_cons_self x xs), by simpa using h1, le_of_not_lt h2, rfl⟩
            · rw [if_neg h3] at hc
              simp only [Option.some.injEq, Prod.mk.injEq] at hc
              obtain ⟨rfl, rfl, -⟩ := hc
              exact hacc b' bi' bd' rfl
  match hfold : nonDepot.foldl step none with
  | none => rw [hfold] at h; simp at h
  | some (b, bi, bd) =>
    rw [hfold] at h
    simp only [Option.map_some', Option.some.injEq, Prod.mk.injEq] at h
    obtain ⟨rfl, rfl⟩ := h
    exact key nonDepot none (fun _ hx => hx) (by intro _ _ _ hc; cases hc) b bi bd hfold

/-- Invariants of the greedy per-vehicle loop: the demand appended to
`chosen` is exactly the capacity consumed; once anything has been chosen
the remaining capacity is non-negative (each selection fits); and every
chosen location comes from the accumulator or the candidate list. -/
theorem greedyRoute_spec (dist : Nat → Nat → ℚ) (idxOf : Nat → Nat)
    (nonDepot : List Location) :
    ∀ (fuel : Nat) (assigned : List Nat) (remaining : ℚ) (currentIndex : Nat)
      (chosen : List Location),
      demandSum (greedyRoute dist idxOf nonDepot fuel assigned remaining currentIndex chosen).1
          = demandSum chosen + (remaining -
            (greedyRoute dist idxOf nonDepot fuel assigned remaining currentIndex chosen).2.2) ∧
      ((greedyRoute dist idxOf nonDepot fuel assigned remaining currentIndex chosen).1 = chosen ∧
        (greedyRoute dist idxOf nonDepot fuel assigned remaining currentIndex chosen).2.2
          = remaining ∨
        0 ≤ (greedyRoute dist idxOf nonDepot fuel assigned remaining currentIndex chosen).2.2) ∧
      (∀ l ∈ (greedyRoute dist idxOf nonDepot fuel assigned remaining currentIndex chosen).1,
        l ∈ chosen ∨ l ∈ nonDepot) := by
  intro fuel
  induction fuel with
  | zero =>
    intro assigned remaining currentIndex chosen
    refine ⟨by simp [greedyRoute], Or.inl ⟨rfl, rfl⟩, ?_⟩
    intro l hl
    exact Or.inl hl
  | succ fuel ih =>
    intro assigned remaining currentIndex chosen
    unfold greedyRoute
    cases hsel : selectBest dist idxOf currentIndex assigned remaining nonDepot with
    | none =>
      refine ⟨by simp, Or.inl ⟨rfl, rfl⟩, ?_⟩
      intro l hl
      exact Or.inl hl
    | some p =>
      obtain ⟨best, bi⟩ := p
      obtain ⟨hbmem, -, hdem, rfl⟩ :=
        selectBest_spec dist idxOf currentIndex assigned remaining nonDepot best bi hsel
      obtain ⟨ihsum, ihrem, ihmem⟩ :=
        ih (best.id :: assigned) (remaining - best.demand) (idxOf best.id) (chosen ++ [best])
      refine ⟨?_, ?_, ?_⟩
      · rw [ihsum, demandSum_append]
        simp [demandSum]
        ring
      · right
        rcases ihrem with ⟨-, hr⟩ | hr
        · rw [hr]
          linarith
        · exact hr
      · intro l hl
        rcases ihmem l hl with hin | hin
        · rcases List.mem_append.mp hin with hin' | hin'
          · exact Or.inl hin'
          · simp only [List.mem_singleton] at hin'
            subst hin'
            exact Or.inr hbmem
        · exact Or.inr hin

theorem annotateAux_length (dist adjDur : Nat → Nat → ℚ) (idxOf : Nat → Nat) (startMin : ℤ)
    (len : Nat) :
    ∀ (rest : List Location) (i prevIdx : Nat) (cd ct : ℚ),
      (annotateAux dist adjDur idxOf startMin len i prevIdx cd ct rest).1.length
        = rest.length := by
  intro rest
  induction rest with
  | nil => intro i prevIdx cd ct; rfl
  | cons loc rest' ih =>
    intro i prevIdx cd ct
    simp only [annotateAux]
    simpa using ih (i + 1) (idxOf loc.id) _ _

/-- The annotator copies each stop's id and demand from the raw sequence. -/
theorem annotateAux_map_id_demand (dist adjDur : Nat → Nat → ℚ) (idxOf : Nat → Nat)
    (startMin : ℤ) (len : Nat) :
    ∀ (rest : List Location) (i prevIdx : Nat) (cd ct : ℚ),
      (annotateAux dist adjDur idxOf startMin len i prevIdx cd ct rest).1.map
          (fun s => (s.locationId, s.demand))
        = rest.map (fun l => (l.id, l.demand)) := by
  intro rest
  induction rest with
  | nil => intro i prevIdx cd ct; rfl
  | cons loc rest' ih =>
    intro i prevIdx cd ct
    simp only [annotateAux]
    simpa using ih (i + 1) (idxOf loc.id) _ _

/-- The annotation loop computes, at every position, exactly the spec-side
cumulative quantities: processing the tail of `seq` from position `i` with
the accumulated distance/time of positions `0..i-1` produces the
`specStop`s of positions `i, i+1, …`. -/
theorem annotateAux_eq_spec (dist adjDur : Nat → Nat → ℚ) (idxOf : Nat → Nat) (startMin : ℤ)
    (seq : List Location) :
    ∀ (rest : List Location) (i prevIdx : Nat),
      seq.drop i = rest →
      (i ≠ 0 → prevIdx = idxOf ((seq.map Location.id).getD (i - 1) 0)) →
      (annotateAux dist adjDur idxOf startMin seq.length i prevIdx
          (specCumDist dist idxOf (seq.map Location.id) (i - 1))
          (specCumTime adjDur idxOf (seq.map Location.id) (i - 1)) rest).1
        = (List.range' i rest.length).map (specStop dist adjDur idxOf startMin seq) := by
  intro rest
  induction rest with
  | nil =>
    intro i prevIdx _ _
    rfl
  | cons loc rest' ih =>
    intro i prevIdx hdrop hprev
    have hi : i < seq.length := by
      by_contra hge
      push_neg at hge
      rw [List.drop_eq_nil_of_le hge] at hdrop
      simp at hdrop
    have hcons := List.drop_eq_getElem_cons hi
    rw [hdrop] at hcons
    have hloc : loc = seq[i] := (List.cons_eq_cons.mp hcons).1
    have hrest' : rest' = seq.drop (i + 1) := (List.cons_eq_cons.mp hcons).2
    have f1 : (seq.map Location.id).getD i 0 = loc.id := by
      rw [List.getD_eq_getElem?_getD, List.getElem?_map, List.getElem?_eq_getElem hi]
      simp [hloc]
    have f2 : seq.getD i default = loc := by
      rw [List.getD_eq_getElem?_getD, List.getElem?_eq_getElem hi]
      simp [hloc]
    have hlen : (seq.map Location.id).length = seq.length := by simp
    have hcd : specCumDist dist idxOf (seq.map Location.id) (i - 1) +
        (if i = 0 then 0 else dist prevIdx (idxOf loc.id))
        = specCumDist dist idxOf (seq.map Location.id) i := by
      cases i with
      | zero => simp [specCumDist]
      | succ j =>
        rw [if_neg (Nat.succ_ne_zero j)]
        have hp := hprev (Nat.succ_ne_zero j)
        simp only [Nat.add_sub_cancel] at hp
        rw [hp, ← f1]
        simp [specCumDist, Nat.add_sub_cancel]
    have hct : specCumTime adjDur idxOf (seq.map Location.id) (i - 1) +
        (if i = 0 then 0
          else if i < seq.length - 1 then adjDur prevIdx (idxOf loc.id) + SERVICE_TIME_MINUTES
          else adjDur prevIdx (idxOf loc.id))
        = specCumTime adjDur idxOf (seq.map Location.id) i := by
      cases i with
      | zero => simp [specCumTime]
      | succ j =>
        rw [if_neg (Nat.succ_ne_zero j)]
        have hp := hprev (Nat.succ_ne_zero j)
        simp only [Nat.add_sub_cancel] at hp
        rw [hp, ← f1]
        simp only [specCumTime, Nat.add_sub_cancel, hlen]
        by_cases hc : j + 1 < seq.length - 1
        · rw [if_pos hc, if_pos hc]; ring
        · rw [if_neg hc, if_neg hc]; ring
    simp only [annotateAux]
    simp only [List.length_cons, List.range'_succ, List.map_cons]
    refine List.cons_eq_cons.mpr ⟨?_, ?_⟩
    · rw [hcd, hct]
      unfold specStop
      rw [f2]
      dsimp only
      cases i with
      | zero => simp
      | succ j =>
        have hp := hprev (Nat.succ_ne_zero j)
        simp only [Nat.add_sub_cancel] at hp
        rw [if_neg (Nat.succ_ne_zero j), hp]
        simp only [Nat.add_sub_cancel]
        rw [f1, if_neg (Nat.succ_ne_zero j)]
    · rw [hcd, hct]
      have hd1 : specCumDist dist idxOf (seq.map Location.id) i
          = specCumDist dist idxOf (seq.map Location.id) ((i + 1) - 1) := by
        simp
      have hd2 : specCumTime adjDur idxOf (seq.map Location.id) i
          = specCumTime adjDur idxOf (seq.map Location.id) ((i + 1) - 1) := by
        simp
      rw [hd1, hd2]
      exact ih (i + 1) (idxOf loc.id) hrest'.symm
        (fun _ => by simp only [Nat.add_sub_cancel]; exact (congrArg idxOf f1).symm)

theorem annotate_eq_spec (dist adjDur : Nat → Nat → ℚ) (idxOf : Nat → Nat) (startMin : ℤ)
    (seq : List Location) :
    (annotate dist adjDur idxOf startMin seq).1
      = (List.range' 0 seq.length).map (specStop dist adjDur idxOf startMin seq) := by
  unfold annotate
  have h := annotateAux_eq_spec dist adjDur idxOf startMin seq seq 0 0 rfl (by simp)
  simpa [specCumDist, specCumTime] using h

/-- `buildRoute` with a positive extra delay differs from the undelayed
route only in its `duration` field. -/
theorem buildRoute_extra (dist adjDur : Nat → Nat → ℚ) (idxOf : Nat → Nat) (startMin : ℤ)
    (depot : Location) (vs : VehicleSlot) (chosen : List Location) (remaining : ℚ)
    (extra : ℚ) :
    buildRoute dist adjDur idxOf startMin depot vs chosen remaining extra
      = { buildRoute dist adjDur idxOf startMin depot vs chosen remaining 0 with
          duration :=
            (buildRoute dist adjDur idxOf startMin depot vs chosen remaining 0).duration
              + extra } := by
  unfold buildRoute
  dsimp only
  congr 1
  ring

/-- With a non-empty accumulator the fixed delay can never fire again, so
the delayed and undelayed loops agree. -/
theorem buildLoop_acc_ne_nil (dist adjDur : Nat → Nat → ℚ) (idxOf : Nat → Nat) (startMin : ℤ)
    (fd : ℚ) (depot : Location) (nonDepot : List Location) (depotIndex : Nat) :
    ∀ (slots : List VehicleSlot) (assigned : List Nat) (acc : List Route), acc ≠ [] →
      buildLoop dist adjDur idxOf startMin fd depot nonDepot depotIndex slots assigned acc
        = buildLoop dist adjDur idxOf startMin 0 depot nonDepot depotIndex slots assigned acc := by
  intro slots
  induction slots with
  | nil => intro assigned acc _; rfl
  | cons vs rest ih =>
    intro assigned acc hacc
    simp only [buildLoop]
    have hie : acc.isEmpty = false := by
      cases acc with
      | nil => exact absurd rfl hacc
      | cons a as => rfl
    by_cases hch :
        (greedyRoute dist idxOf nonDepot nonDepot.length assigned vs.capacity depotIndex []).1.isEmpty
    · rw [if_pos hch, if_pos hch]
      by_cases hbr :
          (greedyRoute dist idxOf nonDepot nonDepot.length assigned vs.capacity
            depotIndex []).2.1.length = nonDepot.length
      · rw [if_pos hbr, if_pos hbr]
      · rw [if_neg hbr, if_neg hbr]
        exact ih _ acc hacc
    · rw [if_neg hch, if_neg hch]
      have hcond : ¬ (0 < fd ∧ acc.isEmpty = true) := by
        rw [hie]; rintro ⟨-, h⟩; cases h
      have hcond0 : ¬ ((0 : ℚ) < 0 ∧ acc.isEmpty = true) := by
        rintro ⟨h, -⟩; exact lt_irrefl 0 h
      rw [if_neg hcond, if_neg hcond0]
      by_cases hbr :
          (greedyRoute dist idxOf nonDepot nonDepot.length assigned vs.capacity
            depotIndex []).2.1.length = nonDepot.length
      · rw [if_pos hbr, if_pos hbr]
      · rw [if_neg hbr, if_neg hbr]
        exact ih _ _ (by simp)

/-- With zero fixed delay the accumulator is a passive prefix of the
result. -/
theorem buildLoop_zero_append (dist adjDur : Nat → Nat → ℚ) (idxOf : Nat → Nat) (startMin : ℤ)
    (depot : Location) (nonDepot : List Location) (depotIndex : Nat) :
    ∀ (slots : List VehicleSlot) (assigned : List Nat) (acc : List Route),
      buildLoop dist adjDur idxOf startMin 0 depot nonDepot depotIndex slots assigned acc
        = acc ++ buildLoop dist adjDur idxOf startMin 0 depot nonDepot depotIndex
            slots assigned [] := by
  intro slots
  induction slots with
  | nil => intro assigned acc; simp [buildLoop]
  | cons vs rest ih =>
    intro assigned acc
    simp only [buildLoop]
    have hcond0 : ∀ (l : List Route), ¬ ((0 : ℚ) < 0 ∧ l.isEmpty = true) := by
      rintro l ⟨h, -⟩; exact lt_irrefl 0 h
    by_cases hch :
        (greedyRoute dist idxOf nonDepot nonDepot.length assigned vs.capacity depotIndex []).1.isEmpty
    · rw [if_pos hch, if_pos hch]
      by_cases hbr :
          (greedyRoute dist idxOf nonDepot nonDepot.length assigned vs.capacity
            depotIndex []).2.1.length = nonDepot.length
      · rw [if_pos hbr, if_pos hbr]
        simp
      · rw [if_neg hbr, if_neg hbr]
        rw [ih _ acc, ih _ ([] : List Route)]
    · rw [if_neg hch, if_neg hch]
      rw [if_neg (hcond0 acc), if_neg (hcond0 [])]
      by_cases hbr :
          (greedyRoute dist idxOf nonDepot nonDepot.length assigned vs.capacity
            depotIndex []).2.1.length = nonDepot.length
      · rw [if_pos hbr, if_pos hbr]
        simp
      · rw [if_neg hbr, if_neg hbr]
        rw [ih _ (acc ++ [_]), ih _ ([] ++ [_])]
        simp

/-- The fixed delay lands exactly on the first constructed route: the
delayed build equals the undelayed build with the first route's duration
bumped. -/
theorem buildLoop_bump (dist adjDur : Nat → Nat → ℚ) (idxOf : Nat → Nat) (startMin : ℤ)
    (fd : ℚ) (hfd : 0 < fd) (depot : Location) (nonDepot : List Location) (depotIndex : Nat) :
    ∀ (slots : List VehicleSlot) (assigned : List Nat),
      buildLoop dist adjDur idxOf startMin fd depot nonDepot depotIndex slots assigned []
        = bumpFirst fd
            (buildLoop dist adjDur idxOf startMin 0 depot nonDepot depotIndex
              slots assigned []) := by
  intro slots
  induction slots with
  | nil => intro assigned; rfl
  | cons vs rest ih =>
    intro assigned
    simp only [buildLoop]
    by_cases hch :
        (greedyRoute dist idxOf nonDepot nonDepot.length assigned vs.capacity depotIndex []).1.isEmpty
    · rw [if_pos hch, if_pos hch]
      by_cases hbr :
          (greedyRoute dist idxOf nonDepot nonDepot.length assigned vs.capacity
            depotIndex []).2.1.length = nonDepot.length
      · rw [if_pos hbr, if_pos hbr]
        rfl
      · rw [if_neg hbr, if_neg hbr]
        exact ih _
    · rw [if_neg hch, if_neg hch]
      have hcondf : (0 < fd ∧ (List.isEmpty ([] : List Route)) = true) := ⟨hfd, rfl⟩
      have hcond0 : ¬ ((0 : ℚ) < 0 ∧ (List.isEmpty ([] : List Route)) = true) := by
        rintro ⟨h, -⟩; exact lt_irrefl 0 h
      rw [if_pos hcondf, if_neg hcond0]
      rw [buildRoute_extra dist adjDur idxOf startMin depot vs _ _ fd]
      by_cases hbr :
          (greedyRoute dist idxOf nonDepot nonDepot.length assigned vs.capacity
            depotIndex []).2.1.length = nonDepot.length
      · rw [if_pos hbr, if_pos hbr]
        rfl
      · rw [if_neg hbr, if_neg hbr]
        rw [buildLoop_acc_ne_nil dist adjDur idxOf startMin fd depot nonDepot depotIndex
          _ _ _ (by simp)]
        rw [buildLoop_zero_append dist adjDur idxOf startMin depot nonDepot depotIndex _ _
          ([] ++ [_]), buildLoop_zero_append dist adjDur idxOf startMin depot nonDepot
            depotIndex _ _ ([] ++ [_])]
        simp [bumpFirst]

/-- Route-builder frame property: a positive fixed delay only bumps the
first route's duration. -/
theorem runORTools_delay_frame (dist dur : Nat → Nat → ℚ) (vehicles : List Vehicle)
    (locations : List Location) (depot : Location) (mult : ℚ) (sh sm : Nat)
    (iloc : Option (ℚ × ℚ)) (fd : ℚ) (hfd : 0 < fd) :
    runORTools dist dur vehicles locations depot mult sh sm iloc fd
      = bumpFirst fd (runORTools dist dur vehicles locations depot mult sh sm iloc 0) := by
  unfold runORTools
  exact buildLoop_bump _ _ _ _ fd hfd _ _ _ _ _

theorem bumpFirst_length (fd : ℚ) (l : List Route) : (bumpFirst fd l).length = l.length := by
  cases l <;> rfl

theorem sumDur_bumpFirst (fd : ℚ) (l : List Route) (h : l ≠ []) :
    sumDur (bumpFirst fd l) = sumDur l + fd := by
  cases l with
  | nil => exact absurd rfl h
  | cons r rs => simp [bumpFirst, sumDur]; ring

theorem sumDist_bumpFirst (fd : ℚ) (l : List Route) :
    sumDist (bumpFirst fd l) = sumDist l := by
  cases l <;> simp [bumpFirst, sumDist]

/-- Every route the slot loop produces (beyond its accumulator) is the
closed route of some slot's greedy run, with some extra delay. -/
theorem buildLoop_mem (dist adjDur : Nat → Nat → ℚ) (idxOf : Nat → Nat) (startMin : ℤ)
    (fd : ℚ) (depot : Location) (nonDepot : List Location) (depotIndex : Nat) :
    ∀ (slots : List VehicleSlot) (assigned : List Nat) (acc : List Route) (r : Route),
      r ∈ buildLoop dist adjDur idxOf startMin fd depot nonDepot depotIndex slots assigned acc →
      r ∈ acc ∨ ∃ vs, vs ∈ slots ∧ ∃ (prevAssigned : List Nat) (extra : ℚ),
        (greedyRoute dist idxOf nonDepot nonDepot.length prevAssigned vs.capacity
            depotIndex []).1 ≠ [] ∧
        r = buildRoute dist adjDur idxOf startMin depot vs
          (greedyRoute dist idxOf nonDepot nonDepot.length prevAssigned vs.capacity
            depotIndex []).1
          (greedyRoute dist idxOf nonDepot nonDepot.length prevAssigned vs.capacity
            depotIndex []).2.2 extra := by
  intro slots
  induction slots with
  | nil => intro assigned acc r hr; exact Or.inl hr
  | cons vs rest ih =>
    intro assigned acc r hr
    simp only [buildLoop] at hr
    by_cases hch :
        (greedyRoute dist idxOf nonDepot nonDepot.length assigned vs.capacity depotIndex []).1.isEmpty
    · rw [if_pos hch] at hr
      by_cases hbr :
          (greedyRoute dist idxOf nonDepot nonDepot.length assigned vs.capacity
            depotIndex []).2.1.length = nonDepot.length
      · rw [if_pos hbr] at hr
        exact Or.inl hr
      · rw [if_neg hbr] at hr
        rcases ih _ _ r hr with h | ⟨vs', hvs', rest'⟩
        · exact Or.inl h
        · exact Or.inr ⟨vs', List.mem_cons_of_mem vs hvs', rest'⟩
    · rw [if_neg hch] at hr
      have hmem : ∀ (rr : Route),
          rr ∈ acc ++ [buildRoute dist adjDur idxOf startMin depot vs
            (greedyRoute dist idxOf nonDepot nonDepot.length assigned vs.capacity
              depotIndex []).1
            (greedyRoute dist idxOf nonDepot nonDepot.length assigned vs.capacity
              depotIndex []).2.2
            (if 0 < fd ∧ acc.isEmpty then fd else 0)] →
          rr ∈ acc ∨ ∃ vs', vs' ∈ vs :: rest ∧ ∃ (prevAssigned : List Nat) (extra : ℚ),
            (greedyRoute dist idxOf nonDepot nonDepot.length prevAssigned vs'.capacity
                depotIndex []).1 ≠ [] ∧
            rr = buildRoute dist adjDur idxOf startMin depot vs'
              (greedyRoute dist idxOf nonDepot nonDepot.length prevAssigned vs'.capacity
                depotIndex []).1
              (greedyRoute dist idxOf nonDepot nonDepot.length prevAssigned vs'.capacity
                depotIndex []).2.2 extra := by
        intro rr hrr
        rcases List.mem_append.mp hrr with h | h
        · exact Or.inl h
        · simp only [List.mem_singleton] at h
          refine Or.inr ⟨vs, List.mem_cons_self vs rest, assigned, _, ?_, h⟩
          intro hnil
          rw [hnil] at hch
          exact hch rfl
      by_cases hbr :
          (greedyRoute dist idxOf nonDepot nonDepot.length assigned vs.capacity
            depotIndex []).2.1.length = nonDepot.length
      · rw [if_pos hbr] at hr
        exact hmem r hr
      · rw [if_neg hbr] at hr
        rcases ih _ _ r hr with h | ⟨vs', hvs', rest'⟩
        · exact hmem r h
        · exact Or.inr ⟨vs', List.mem_cons_of_mem vs hvs', rest'⟩

theorem expandVehicles_mem (vehicles : List Vehicle) (vs : VehicleSlot)
    (h : vs ∈ expandVehicles vehicles) :
    ∃ v, v ∈ vehicles ∧ vs.vid = v.id ∧ vs.capacity = v.capacity := by
  unfold expandVehicles at h
  rcases List.mem_flatMap.mp h with ⟨v, hv, hmem⟩
  have he := List.eq_of_mem_replicate hmem
  exact ⟨v, hv, by rw [he], by rw [he]⟩

theorem filter_demand_sum (dId : Nat) :
    ∀ (stops : List Stop) (seq : List Location),
      stops.map (fun s => (s.locationId, s.demand)) = seq.map (fun l => (l.id, l.demand)) →
      ((stops.filter (fun s => s.locationId != dId)).map Stop.demand).sum
        = ((seq.filter (fun l => l.id != dId)).map Location.demand).sum := by
  intro stops
  induction stops with
  | nil =>
    intro seq h
    cases seq with
    | nil => rfl
    | cons l ls => simp at h
  | cons s ss ih =>
    intro seq h
    cases seq with
    | nil => simp at h
    | cons l ls =>
      simp only [List.map_cons, List.cons.injEq, Prod.mk.injEq] at h
      obtain ⟨⟨h1, h2⟩, h3⟩ := h
      simp only [List.filter_cons, h1]
      by_cases hc : (l.id != dId) = true
      · rw [if_pos hc, if_pos hc]
        simp only [List.map_cons, List.sum_cons, h2]
        rw [ih ls h3]
      · rw [if_neg hc, if_neg hc]
        exact ih ls h3

theorem filter_closed_seq (depot : Location) (chosen : List Location)
    (hch : ∀ l ∈ chosen, l.id ≠ depot.id) :
    (depot :: (chosen ++ [depot])).filter (fun l => l.id != depot.id) = chosen := by
  have hd : (depot.id != depot.id) = false := by simp
  rw [List.filter_cons_of_neg (by simp [hd]), List.filter_append]
  rw [List.filter_cons_of_neg (by simp [hd]), List.filter_nil, List.append_nil]
  exact List.filter_eq_self.mpr (fun l hl => by simpa using hch l hl)

theorem specCumTime_nonneg (adjDur : Nat → Nat → ℚ) (idxOf : Nat → Nat) (ids : List Nat)
    (hadj : ∀ a b, 0 ≤ adjDur a b) : ∀ k, 0 ≤ specCumTime adjDur idxOf ids k := by
  intro k
  induction k with
  | zero => simp [specCumTime]
  | succ j ih =>
    simp only [specCumTime]
    have h1 := hadj (idxOf (ids.getD j 0)) (idxOf (ids.getD (j + 1) 0))
    have h2 : (0 : ℚ) ≤ if j + 1 < ids.length - 1 then SERVICE_TIME_MINUTES else 0 := by
      split
      · norm_num [SERVICE_TIME_MINUTES]
      · exact le_refl 0
    linarith

theorem jsRound_nonneg (q : ℚ) (h : 0 ≤ q) : 0 ≤ jsRound q := by
  unfold jsRound
  rw [Int.le_floor]
  push_cast
  linarith

theorem jsRound_zero : jsRound 0 = 0 := by
  unfold jsRound
  norm_num

theorem round2_zero : round2 0 = 0 := by
  unfold round2
  norm_num

theorem buildRoute_stops (dist adjDur : Nat → Nat → ℚ) (idxOf : Nat → Nat) (startMin : ℤ)
    (depot : Location) (vs : VehicleSlot) (chosen : List Location) (rem extra : ℚ) :
    (buildRoute dist adjDur idxOf startMin depot vs chosen rem extra).stops
      = (annotate dist adjDur idxOf startMin (depot :: (chosen ++ [depot]))).1 := rfl

theorem bumpFirst_get_zero (fd : ℚ) (l : List Route) (h : 0 < (bumpFirst fd l).length)
    (h' : 0 < l.length) :
    ((bumpFirst fd l).get ⟨0, h⟩).duration = (l.get ⟨0, h'⟩).duration + fd := by
  cases l with
  | nil => simp at h'
  | cons r rs => rfl

theorem bumpFirst_get_pos (fd : ℚ) (l : List Route) (j : Nat) (hj : j < (bumpFirst fd l).length)
    (hj' : j < l.length) (h0 : 0 < j) :
    (bumpFirst fd l).get ⟨j, hj⟩ = l.get ⟨j, hj'⟩ := by
  cases l with
  | nil => simp at hj'
  | cons r rs =>
    cases j with
    | zero => exact absurd h0 (lt_irrefl 0)
    | succ i => rfl

/-- Inversion of a successful create: the produced run record. -/
theorem createOptimization_ok_inv (dist dur : Nat → Nat → ℚ) (vehicles : List Vehicle)
    (locations : List Location) (sh sm : Nat) (wi : Bool) (r : Run)
    (h : createOptimization dist dur vehicles locations sh sm wi = Except.ok r) :
    ∃ depot, locations.find? (fun l => l.isDepot) = some depot ∧
      r = { vehicles := vehicles, locations := locations,
            routes := runORTools dist dur vehicles locations depot
              (if wi then 3/2 else 1) sh sm none 0,
            totalDistance := sumDist (runORTools dist dur vehicles locations depot
              (if wi then 3/2 else 1) sh sm none 0),
            totalDuration := sumDur (runORTools dist dur vehicles locations depot
              (if wi then 3/2 else 1) sh sm none 0),
            startHour := sh, startMinute := sm,
            isIncidentActive := false, incidentLocation := none, originalRoutes := none } := by
  unfold createOptimization at h
  by_cases h1 : vehicles.isEmpty
  · rw [if_pos h1] at h; exact Except.noConfusion h
  · rw [if_neg h1] at h
    by_cases h2 : locations.isEmpty
    · rw [if_pos h2] at h; exact Except.noConfusion h
    · rw [if_neg h2] at h
      cases hfind : locations.find? (fun l => l.isDepot) with
      | none => rw [hfind] at h; exact Except.noConfusion h
      | some depot =>
        rw [hfind] at h
        simp only at h
        by_cases h3 : (runORTools dist dur vehicles locations depot
            (if wi then 3/2 else 1) sh sm none 0).isEmpty
        · rw [if_pos h3] at h; exact Except.noConfusion h
        · rw [if_neg h3] at h
          simp only [Except.ok.injEq] at h
          exact ⟨depot, rfl, h.symm⟩

/-- Inversion of a successful simulate-incident request. -/
theorem rerouteOptimization_ok_inv (dist dur : Nat → Nat → ℚ) (d : ℚ) (aidx : Nat)
    (iloc : Option (ℚ × ℚ)) (r r' : Run)
    (h : rerouteOptimization dist dur d aidx iloc r = Except.ok r') :
    ∃ depot, r.locations.find? (fun l => l.isDepot) = some depot ∧
      r' = { r with
        routes := runORTools dist dur r.vehicles r.locations depot 1
          r.startHour r.startMinute (chooseIncidentLocation iloc r.routes)
          (if d = 0 then 60 else d),
        totalDistance := sumDist (runORTools dist dur r.vehicles r.locations depot 1
          r.startHour r.startMinute (chooseIncidentLocation iloc r.routes)
          (if d = 0 then 60 else d)),
        totalDuration := sumDur (runORTools dist dur r.vehicles r.locations depot 1
          r.startHour r.startMinute (chooseIncidentLocation iloc r.routes)
          (if d = 0 then 60 else d)),
        isIncidentActive := true,
        incidentLocation := chooseIncidentLocation iloc r.routes,
        originalRoutes := some r.routes } := by
  unfold rerouteOptimization at h
  cases hfind : r.locations.find? (fun l => l.isDepot) with
  | none => rw [hfind] at h; exact Except.noConfusion h
  | some depot =>
    rw [hfind] at h
    simp only [Except.ok.injEq] at h
    exact ⟨depot, rfl, h.symm⟩

/-- Inversion of a successful resolve. -/
theorem resolveIncident_ok_inv (dist dur : Nat → Nat → ℚ) (r r' : Run)
    (h : resolveIncident dist dur r = Except.ok r') :
    r.isIncidentActive = true ∧
    ∃ depot, r.locations.find? (fun l => l.isDepot) = some depot ∧
      r' = { r with
        routes := runORTools dist dur r.vehicles r.locations depot 1
          r.startHour r.startMinute none 0,
        totalDistance := sumDist (runORTools dist dur r.vehicles r.locations depot 1
          r.startHour r.startMinute none 0),
        totalDuration := sumDur (runORTools dist dur r.vehicles r.locations depot 1
          r.startHour r.startMinute none 0),
        isIncidentActive := false,
        incidentLocation := none,
        originalRoutes := none } := by
  unfold resolveIncident at h
  by_cases ha : r.isIncidentActive
  · rw [if_neg (by simp [ha])] at h
    refine ⟨ha, ?_⟩
    cases hfind : r.locations.find? (fun l => l.isDepot) with
    | none => rw [hfind] at h; exact Except.noConfusion h
    | some depot =>
      rw [hfind] at h
      simp only [Except.ok.injEq] at h
      exact ⟨depot, rfl, h.symm⟩
  · rw [if_pos (by simp [Bool.not_eq_true] at ha; simp [ha])] at h
    exact Except.noConfusion h

/-- Example distance matrix used for concrete witnesses. -/
def exDist : Nat → Nat → ℚ := fun i j => if i = j then 0 else ((i + j : Nat) : ℚ)

/-- Example duration matrix used for concrete witnesses. -/
def exDur : Nat → Nat → ℚ := fun i j => if i = j then 0 else ((10 * (i + j) : Nat) : ℚ)

def exDepot : Location := ⟨0, "Depot", 0, 0, 0, true⟩

def exA : Location := ⟨1, "A", 1, 0, 2, false⟩

def exB : Location := ⟨2, "B", 0, 2, 3, false⟩

def exLocs : List Location := [exDepot, exA, exB]

def exVehicles : List Vehicle := [⟨10, "Truck", 5, 1⟩]

/-- A normally created example run. -/
def exR0 : Run := getRun (createOptimization exDist exDur exVehicles exLocs 8 0 false)

/-- The example run after one simulate-incident request (delay 100). -/
def exR1 : Run := getRun (rerouteOptimization exDist exDur 100 0 none exR0)

/-- Variant inputs producing two routes (two vehicle slots of capacity 2,
two unit-location demands of 2). -/
def exB2 : Location := ⟨2, "B", 0, 2, 2, false⟩

def exLocs2 : List Location := [exDepot, exA, exB2]

def exVehicles2 : List Vehicle := [⟨10, "Truck", 2, 2⟩]

def exT0 : Run := getRun (createOptimization exDist exDur exVehicles2 exLocs2 8 0 false)

/-- **C10.** When a positive fixed delay is supplied to the route builder,
the result is identical to the zero-delay build except that the first
route's top-level `duration` is increased by the delay: every stop field
(`cumulativeDistance`, `distanceFromPrev`, `arrivalTime`, `eta`), every
route's `distance`, stop list, vehicle and capacity fields, and all other
routes' durations coincide with the zero-delay run. -/
theorem c10_delay_frame (dist dur : Nat → Nat → ℚ) (vehicles : List Vehicle)
    (locations : List Location) (depot : Location) (mult : ℚ) (sh sm : Nat)
    (iloc : Option (ℚ × ℚ)) (fd : ℚ) (hfd : 0 < fd) :
    runORTools dist dur vehicles locations depot mult sh sm iloc fd
      = bumpFirst fd (runORTools dist dur vehicles locations depot mult sh sm iloc 0) :=
  runORTools_delay_frame dist dur vehicles locations depot mult sh sm iloc fd hfd

theorem c10_delay_frame_witness :
    (0 : ℚ) < 50 ∧
    runORTools exDist exDur exVehicles exLocs exDepot 1 8 0 none 50
      = bumpFirst 50 (runORTools exDist exDur exVehicles exLocs exDepot 1 8 0 none 0) :=
  ⟨by norm_num,
    c10_delay_frame exDist exDur exVehicles exLocs exDepot 1 8 0 none 50 (by norm_num)⟩

/-- **C3.** For every simulate-incident request (with a non-negative
collaborator delay) that succeeds, the produced routes equal the undelayed
rebuild except that the applied fixed delay is added to the first route's
duration and to no other route; when the route set is non-empty, the
total-duration aggregate exceeds the sum of the undelayed durations by
exactly the applied delay. -/
theorem c3_delay_exactly_first (dist dur : Nat → Nat → ℚ) (d : ℚ) (aidx : Nat)
    (iloc : Option (ℚ × ℚ)) (r r' : Run) (depot : Location)
    (hd : 0 ≤ d)
    (hfind : r.locations.find? (fun l => l.isDepot) = some depot)
    (h : rerouteOptimization dist dur d aidx iloc r = Except.ok r') :
    let fd : ℚ := if d = 0 then 60 else d
    let base := runORTools dist dur r.vehicles r.locations depot 1 r.startHour r.startMinute
      (chooseIncidentLocation iloc r.routes) 0
    r'.routes.length = base.length ∧
    (∀ (h0 : 0 < r'.routes.length) (h0' : 0 < base.length),
      (r'.routes.get ⟨0, h0⟩).duration = (base.get ⟨0, h0'⟩).duration + fd) ∧
    (∀ (j : Nat) (hj : j < r'.routes.length) (hj' : j < base.length), 0 < j →
      r'.routes.get ⟨j, hj⟩ = base.get ⟨j, hj'⟩) ∧
    (r'.routes ≠ [] → r'.totalDuration = sumDur base + fd) := by
  intro fd base
  obtain ⟨depot', hfind', hr'⟩ := rerouteOptimization_ok_inv dist dur d aidx iloc r r' h
  rw [hfind] at hfind'
  have hdep : depot' = depot := by simpa using hfind'.symm
  rw [hdep] at hr' 
  have hfd : 0 < fd := by
    by_cases h0 : d = 0
    · simp only [fd, if_pos h0]; norm_num
    · simp only [fd, if_neg h0]
      exact lt_of_le_of_ne hd (Ne.symm h0)
  have hroutes : r'.routes = bumpFirst fd base := by
    rw [hr']
    exact runORTools_delay_frame dist dur r.vehicles r.locations depot 1
      r.startHour r.startMinute (chooseIncidentLocation iloc r.routes) fd hfd
  refine ⟨?_, ?_, ?_, ?_⟩
  · rw [hroutes, bumpFirst_length]
  · intro h0 h0'
    have h0b : 0 < (bumpFirst fd base).length := by rw [← hroutes]; exact h0
    calc (r'.routes.get ⟨0, h0⟩).duration
        = ((bumpFirst fd base).get ⟨0, h0b⟩).duration := by
          congr 1
          exact (List.get_of_eq hroutes _)
      _ = (base.get ⟨0, h0'⟩).duration + fd := bumpFirst_get_zero fd base h0b h0'
  · intro j hj hj' hpos
    have hjb : j < (bumpFirst fd base).length := by rw [← hroutes]; exact hj
    calc r'.routes.get ⟨j, hj⟩
        = (bumpFirst fd base).get ⟨j, hjb⟩ := List.get_of_eq hroutes _
      _ = base.get ⟨j, hj'⟩ := bumpFirst_get_pos fd base j hjb hj' hpos
  · intro hne
    have hbne : base ≠ [] := by
      intro hb
      rw [hroutes, hb] at hne
      exact hne rfl
    have : r'.totalDuration = sumDur r'.routes := by rw [hr']
    rw [this, hroutes, sumDur_bumpFirst fd base hbne]

unseal Rat.add Rat.sub Rat.mul Rat.inv in
theorem c3_delay_exactly_first_witness :
    exR1.totalDuration
      = sumDur (runORTools exDist exDur exR0.vehicles exR0.locations exDepot 1
          exR0.startHour exR0.startMinute (chooseIncidentLocation none exR0.routes) 0) + 100 := by
  have h := c3_delay_exactly_first exDist exDur 100 0 none exR0 exR1 exDepot
    (by norm_num) (by decide) (by decide)
  dsimp only at h
  have h4 := h.2.2.2 (by decide)
  have he : (if (100 : ℚ) = 0 then (60 : ℚ) else 100) = 100 := by norm_num
  rw [he] at h4
  exact h4

/-- **C5.** Every route the builder produces is served by one of the input
vehicles; its recorded `totalCapacity` equals the slot capacity minus the
remaining capacity, which is exactly the sum of the demands of its
non-depot stops; and that sum never exceeds the serving vehicle's
capacity (a location whose demand fits no remaining capacity is never
forced into a route). -/
theorem c5_capacity (dist dur : Nat → Nat → ℚ) (vehicles : List Vehicle)
    (locations : List Location) (depot : Location) (mult : ℚ) (sh sm : Nat)
    (iloc : Option (ℚ × ℚ)) (fd : ℚ) (k : Nat)
    (hk : k < (runORTools dist dur vehicles locations depot mult sh sm iloc fd).length) :
    ∃ v, v ∈ vehicles ∧
      ((runORTools dist dur vehicles locations depot mult sh sm iloc fd).get ⟨k, hk⟩).vehicle
        = v.id ∧
      ((runORTools dist dur vehicles locations depot mult sh sm iloc fd).get
          ⟨k, hk⟩).totalCapacity
        = (((((runORTools dist dur vehicles locations depot mult sh sm iloc fd).get
            ⟨k, hk⟩).stops.filter (fun s => s.locationId != depot.id))).map Stop.demand).sum ∧
      (((((runORTools dist dur vehicles locations depot mult sh sm iloc fd).get
          ⟨k, hk⟩).stops.filter (fun s => s.locationId != depot.id))).map Stop.demand).sum
        ≤ v.capacity := by
  have hrmem : (runORTools dist dur vehicles locations depot mult sh sm iloc fd).get ⟨k, hk⟩
      ∈ runORTools dist dur vehicles locations depot mult sh sm iloc fd :=
    List.get_mem _ _ _
  set r := (runORTools dist dur vehicles locations depot mult sh sm iloc fd).get ⟨k, hk⟩
    with hrdef
  unfold runORTools at hrmem
  rcases buildLoop_mem dist (fun i j => dur i j * mult) (indexOfLoc locations)
      (((sh * 60 + sm : Nat) : ℤ)) fd depot (locations.filter (fun l => l.id != depot.id))
      (indexOfLoc locations depot.id) (expandVehicles vehicles) [] [] r hrmem with
    hin | ⟨vs, hvs, prevA, extra, hne, hr⟩
  · cases hin
  · obtain ⟨v, hv, hvid, hvcap⟩ := expandVehicles_mem vehicles vs hvs
    set nd := locations.filter (fun l => l.id != depot.id) with hnd
    set idx := indexOfLoc locations with hidx
    set g := greedyRoute dist idx nd nd.length prevA vs.capacity
      (indexOfLoc locations depot.id) [] with hgdef
    obtain ⟨hsum, hrem, hmem⟩ := greedyRoute_spec dist idx nd nd.length prevA vs.capacity
      (indexOfLoc locations depot.id) []
    have hchfacts : ∀ l ∈ g.1, l.id ≠ depot.id := by
      intro l hl
      rcases hmem l hl with h | h
      · cases h
      · have := List.mem_filter.mp h
        simpa using this.2
    have hrem' : 0 ≤ g.2.2 := by
      rcases hrem with ⟨h1, -⟩ | h2
      · exact absurd h1 hne
      · exact h2
    have hstops : r.stops = (annotate dist (fun i j => dur i j * mult) idx
        (((sh * 60 + sm : Nat) : ℤ)) (depot :: (g.1 ++ [depot]))).1 := by
      rw [hr]
      rfl
    have hmapeq : r.stops.map (fun s => (s.locationId, s.demand))
        = (depot :: (g.1 ++ [depot])).map (fun l => (l.id, l.demand)) := by
      rw [hstops]
      exact annotateAux_map_id_demand _ _ _ _ _ _ _ _ _ _
    have hfsum : ((r.stops.filter (fun s => s.locationId != depot.id)).map Stop.demand).sum
        = demandSum g.1 := by
      rw [filter_demand_sum depot.id r.stops (depot :: (g.1 ++ [depot])) hmapeq]
      rw [filter_closed_seq depot g.1 hchfacts]
      rfl
    have hcap : r.totalCapacity = vs.capacity - g.2.2 := by
      rw [hr]
      rfl
    have hsum' : demandSum g.1 = vs.capacity - g.2.2 := by
      have : demandSum ([] : List Location) = 0 := rfl
      rw [hsum, this]
      ring
    refine ⟨v, hv, ?_, ?_, ?_⟩
    · rw [hr, ← hvid]
      rfl
    · rw [hcap, hfsum, hsum']
    · rw [hfsum, hsum', ← hvcap]
      linarith

unseal Rat.add Rat.sub Rat.mul Rat.inv in
theorem c5_capacity_witness :
    ∃ v, v ∈ exVehicles ∧
      ((runORTools exDist exDur exVehicles exLocs exDepot 1 8 0 none 0).get
          ⟨0, by decide⟩).vehicle = v.id ∧
      ((runORTools exDist exDur exVehicles exLocs exDepot 1 8 0 none 0).get
          ⟨0, by decide⟩).totalCapacity
        = (((((runORTools exDist exDur exVehicles exLocs exDepot 1 8 0 none 0).get
            ⟨0, by decide⟩).stops.filter
              (fun s => s.locationId != exDepot.id))).map Stop.demand).sum ∧
      (((((runORTools exDist exDur exVehicles exLocs exDepot 1 8 0 none 0).get
          ⟨0, by decide⟩).stops.filter
            (fun s => s.locationId != exDepot.id))).map Stop.demand).sum
        ≤ v.capacity :=
  c5_capacity exDist exDur exVehicles exLocs exDepot 1 8 0 none 0 0 (by decide)

/-- **C8.** For every built route: every stop's `arrivalTime` is the
rounded spec-side cumulative time, whose per-leg increments include the
fixed 15-minute service time exactly for stops that are not the final
closing-depot stop; every stop's `eta` renders departure + cumulative
minutes as a 12-hour AM/PM clock wrapping modulo 1440 with hour 0 shown
as 12; and the first stop has zero cumulative distance and time with an
`eta` equal to the rendered departure time.  Requires non-negative
durations and multiplier (true of all real inputs). -/
theorem c8_annotator_contract (dist dur : Nat → Nat → ℚ) (vehicles : List Vehicle)
    (locations : List Location) (depot : Location) (mult : ℚ) (sh sm : Nat)
    (iloc : Option (ℚ × ℚ)) (fd : ℚ)
    (hdur : ∀ a b, 0 ≤ dur a b) (hmult : 0 ≤ mult) (k : Nat)
    (hk : k < (runORTools dist dur vehicles locations depot mult sh sm iloc fd).length)
    (i : Nat)
    (hi : i < ((runORTools dist dur vehicles locations depot mult sh sm iloc fd).get
        ⟨k, hk⟩).stops.length) :
    let r := (runORTools dist dur vehicles locations depot mult sh sm iloc fd).get ⟨k, hk⟩
    let ids := r.stops.map Stop.locationId
    let adj : Nat → Nat → ℚ := fun a b => dur a b * mult
    let idx := indexOfLoc locations
    (r.stops.get ⟨i, hi⟩).arrivalTime = jsRound (specCumTime adj idx ids i) ∧
    (r.stops.get ⟨i, hi⟩).eta
      = specClock (sh * 60 + sm + (jsRound (specCumTime adj idx ids i)).toNat) ∧
    (i = 0 → (r.stops.get ⟨i, hi⟩).cumulativeDistance = 0 ∧
      (r.stops.get ⟨i, hi⟩).arrivalTime = 0 ∧
      (r.stops.get ⟨i, hi⟩).eta = specClock (sh * 60 + sm)) := by
  intro r ids adj idx
  have hrmem : r ∈ runORTools dist dur vehicles locations depot mult sh sm iloc fd :=
    List.get_mem _ _ _
  rw [runORTools] at hrmem
  rcases buildLoop_mem dist (fun a b => dur a b * mult) (indexOfLoc locations)
      (((sh * 60 + sm : Nat) : ℤ)) fd depot (locations.filter (fun l => l.id != depot.id))
      (indexOfLoc locations depot.id) (expandVehicles vehicles) [] [] r hrmem with
    hin | ⟨vs, hvs, prevA, extra, hne, hr⟩
  · cases hin
  · set seq := depot :: ((greedyRoute dist (indexOfLoc locations)
      (locations.filter (fun l => l.id != depot.id))
      (locations.filter (fun l => l.id != depot.id)).length prevA vs.capacity
      (indexOfLoc locations depot.id) []).1 ++ [depot]) with hseq
    have hstops : r.stops = (annotate dist adj idx (((sh * 60 + sm : Nat) : ℤ)) seq).1 := by
      rw [hr]
      rfl
    have hspec : r.stops = (List.range' 0 seq.length).map
        (specStop dist adj idx (((sh * 60 + sm : Nat) : ℤ)) seq) := by
      rw [hstops]
      exact annotate_eq_spec dist adj idx _ seq
    have hids : ids = seq.map Location.id := by
      show r.stops.map Stop.locationId = _
      have hmapeq : r.stops.map (fun s => (s.locationId, s.demand))
          = seq.map (fun l => (l.id, l.demand)) := by
        rw [hstops]
        exact annotateAux_map_id_demand _ _ _ _ _ _ _ _ _ _
      calc r.stops.map Stop.locationId
          = (r.stops.map (fun s => (s.locationId, s.demand))).map Prod.fst := by
            rw [List.map_map]
            rfl
        _ = (seq.map (fun l => (l.id, l.demand))).map Prod.fst := by rw [hmapeq]
        _ = seq.map Location.id := by
            rw [List.map_map]
            rfl
    have hget : r.stops.get ⟨i, hi⟩
        = specStop dist adj idx (((sh * 60 + sm : Nat) : ℤ)) seq i := by
      rw [List.get_eq_getElem, List.getElem_of_eq hspec, List.getElem_map,
        List.getElem_range'_1]
      simp
    have hadj : ∀ a b, 0 ≤ adj a b := fun a b => mul_nonneg (hdur a b) hmult
    have hq : 0 ≤ specCumTime adj idx ids i := specCumTime_nonneg adj idx ids hadj i
    have hjr : 0 ≤ jsRound (specCumTime adj idx ids i) := jsRound_nonneg _ hq
    refine ⟨?_, ?_, ?_⟩
    · rw [hget]
      unfold specStop
      dsimp only
      rw [← hids]
    · rw [hget]
      unfold specStop
      dsimp only
      rw [← hids]
      have hcast : ((sh * 60 + sm : Nat) : ℤ) + jsRound (specCumTime adj idx ids i)
          = ((sh * 60 + sm + (jsRound (specCumTime adj idx ids i)).toNat : Nat) : ℤ) := by
        omega
      rw [hcast, formatEta_eq_specClock]
    · intro hi0
      subst hi0
      rw [hget]
      unfold specStop
      dsimp only
      have hz : specCumTime adj idx (seq.map Location.id) 0 = 0 := rfl
      have hzd : specCumDist dist idx (seq.map Location.id) 0 = 0 := rfl
      refine ⟨?_, ?_, ?_⟩
      · rw [hzd, round2_zero]
      · rw [hz, jsRound_zero]
      · rw [hz, jsRound_zero, add_zero, formatEta_eq_specClock]

unseal Rat.add Rat.sub Rat.mul Rat.inv in
theorem c8_annotator_contract_witness :
    let r := (runORTools exDist exDur exVehicles exLocs exDepot 1 8 0 none 0).get
      ⟨0, by decide⟩
    let ids := r.stops.map Stop.locationId
    let adj : Nat → Nat → ℚ := fun a b => exDur a b * 1
    let idx := indexOfLoc exLocs
    (r.stops.get ⟨1, by decide⟩).arrivalTime = jsRound (specCumTime adj idx ids 1) ∧
    (r.stops.get ⟨1, by decide⟩).eta
      = specClock (8 * 60 + 0 + (jsRound (specCumTime adj idx ids 1)).toNat) ∧
    (1 = 0 → (r.stops.get ⟨1, by decide⟩).cumulativeDistance = 0 ∧
      (r.stops.get ⟨1, by decide⟩).arrivalTime = 0 ∧
      (r.stops.get ⟨1, by decide⟩).eta = specClock (8 * 60 + 0)) :=
  c8_annotator_contract exDist exDur exVehicles exLocs exDepot 1 8 0 none 0
    (by
      intro a b
      simp only [exDur]
      split
      · exact le_refl 0
      · positivity)
    (by norm_num) 0 (by decide) 1 (by decide)

/-- **C6.** Resolving a run with no active incident is rejected with the
state error before any field of the run is touched (the handler returns at
its guard, so the pure transition yields no new run at all); consequently
a second resolve right after a successful one is rejected the same way. -/
theorem c6_resolve_requires_active (dist dur : Nat → Nat → ℚ) (r : Run) :
    (r.isIncidentActive = false →
      resolveIncident dist dur r = Except.error "No active incident to resolve") ∧
    (∀ r', resolveIncident dist dur r = Except.ok r' →
      resolveIncident dist dur r' = Except.error "No active incident to resolve") := by
  constructor
  · intro h
    unfold resolveIncident
    rw [h]
    rfl
  · intro r' h
    obtain ⟨-, depot, -, hr'⟩ := resolveIncident_ok_inv dist dur r r' h
    rw [hr']
    rfl

unseal Rat.add Rat.sub Rat.mul Rat.inv in
theorem c6_resolve_requires_active_witness :
    resolveIncident exDist exDur exR0 = Except.error "No active incident to resolve" ∧
    resolveIncident exDist exDur (getRun (resolveIncident exDist exDur exR1))
      = Except.error "No active incident to resolve" :=
  ⟨(c6_resolve_requires_active exDist exDur exR0).1 (by decide),
   (c6_resolve_requires_active exDist exDur exR1).2
     (getRun (resolveIncident exDist exDur exR1)) (by decide)⟩

/-- **C4 (amended).** The collaborator's clamp caps values above 300 at 300
and passes values in [30,300] through unchanged, but replaces values below
30 with 60 — not with 30, as a true clamp into [30,300] would; the applied
delay (including the handler's `|| 60` falsy-guard, which never fires on a
clamped value) therefore always lies in [30,300]. -/
theorem c4_delay_clamp_amended (d : ℚ) :
    30 ≤ clampDelay d ∧ clampDelay d ≤ 300 ∧
    (30 ≤ d → d ≤ 300 → clampDelay d = d) ∧
    (300 < d → clampDelay d = 300) ∧
    (d < 30 → clampDelay d = 60) ∧
    (if clampDelay d = 0 then (60 : ℚ) else clampDelay d) = clampDelay d := by
  unfold clampDelay
  by_cases h1 : 300 < d
  · rw [if_pos h1]
    refine ⟨by norm_num, by norm_num, ?_, fun _ => rfl, ?_, by norm_num⟩
    · intro _ hle
      linarith
    · intro hlt
      linarith
  · rw [if_neg h1]
    by_cases h2 : d < 30
    · rw [if_pos h2]
      refine ⟨by norm_num, by norm_num, ?_, ?_, fun _ => rfl, by norm_num⟩
      · intro hge _
        linarith
      · intro hgt
        linarith
    · rw [if_neg h2]
      push_neg at h1 h2
      refine ⟨h2, h1, fun _ _ => rfl, ?_, ?_, ?_⟩
      · intro hgt
        linarith
      · intro hlt
        linarith
      · rw [if_neg (by intro h0; rw [h0] at h2; norm_num at h2)]

theorem c4_delay_clamp_amended_witness :
    30 ≤ clampDelay 100 ∧ clampDelay 100 ≤ 300 ∧ clampDelay 100 = 100 :=
  ⟨(c4_delay_clamp_amended 100).1, (c4_delay_clamp_amended 100).2.1,
   (c4_delay_clamp_amended 100).2.2.1 (by norm_num) (by norm_num)⟩

/-- **C4 counterexample.** A collaborator value of 10 minutes is mapped to
60, not to the interval clamp 30: the code's adjustment is not the clamp
into [30,300] the claim describes. -/
theorem c4_clamp_counterexample :
    clampDelay 10 = 60 ∧ specClamp 10 = 30 ∧ clampDelay 10 ≠ specClamp 10 := by
  refine ⟨?_, ?_, ?_⟩ <;> norm_num [clampDelay, specClamp]

/-- **C7 (amended).** When no incident point is supplied, the point used is
the midpoint (arithmetic mean of latitudes and longitudes) between the
depot stop and the first stop of the run's FIRST route (`routes[0]`) —
regardless of the supplied affected-route index, which the handler forwards
to the analysis collaborator but never reads itself. -/
theorem c7_midpoint_uses_first_route (dist dur : Nat → Nat → ℚ) (d : ℚ) (aidx : Nat)
    (r r' : Run) (route0 : Route) (others : List Route) (s0 s1 : Stop) (rest : List Stop)
    (hroutes : r.routes = route0 :: others)
    (hstops : route0.stops = s0 :: s1 :: rest)
    (h : rerouteOptimization dist dur d aidx none r = Except.ok r') :
    r'.incidentLocation
      = some ((s0.latitude + s1.latitude) / 2, (s0.longitude + s1.longitude) / 2) := by
  obtain ⟨depot, -, hr'⟩ := rerouteOptimization_ok_inv dist dur d aidx none r r' h
  have hloc : r'.incidentLocation = chooseIncidentLocation none r.routes := by
    rw [hr']
  rw [hloc]
  show midpointFallback r.routes = _
  rw [hroutes]
  show (match route0.stops with
    | s0' :: s1' :: _ =>
        some ((s0'.latitude + s1'.latitude) / 2, (s0'.longitude + s1'.longitude) / 2)
    | _ => none) = _
  rw [hstops]

def exT1 : Run := getRun (rerouteOptimization exDist exDur 100 1 none exT0)

unseal Rat.add Rat.sub Rat.mul Rat.inv in
theorem c7_midpoint_uses_first_route_witness :
    exT1.incidentLocation
      = some (((exDepot.latitude + exA.latitude) / 2 : ℚ),
          ((exDepot.longitude + exA.longitude) / 2 : ℚ)) := by
  have h := c7_midpoint_uses_first_route exDist exDur 100 1 exT0 exT1
    (exT0.routes.getD 0 ⟨0, "", [], 0, 0, 0⟩)
    (exT0.routes.drop 1)
    ((exT0.routes.getD 0 ⟨0, "", [], 0, 0, 0⟩).stops.getD 0
      ⟨0, "", 0, 0, 0, 0, 0, 0, 0, ""⟩)
    ((exT0.routes.getD 0 ⟨0, "", [], 0, 0, 0⟩).stops.getD 1
      ⟨0, "", 0, 0, 0, 0, 0, 0, 0, ""⟩)
    ((exT0.routes.getD 0 ⟨0, "", [], 0, 0, 0⟩).stops.drop 2)
    (by decide) (by decide) (by decide)
  rw [h]
  decide

unseal Rat.add Rat.sub Rat.mul Rat.inv in
/-- **C7 counterexample.** A simulate request naming affected route index 1
on a two-route run still takes the midpoint from route 0: the claim's
"midpoint of the route named by the affected-route index" (route 1, whose
midpoint is (0, 1)) does not match the point the code stores ((1/2, 0)). -/
theorem c7_counterexample :
    exT0.routes.length = 2 ∧
    rerouteOptimization exDist exDur 100 1 none exT0 = Except.ok exT1 ∧
    exT1.incidentLocation = some ((1 : ℚ)/2, (0 : ℚ)) ∧
    midpointFallback (exT0.routes.drop 1) = some ((0 : ℚ), (1 : ℚ)) ∧
    exT1.incidentLocation ≠ midpointFallback (exT0.routes.drop 1) := by
  refine ⟨by decide, by decide, by decide, by decide, by decide⟩

unseal Rat.add Rat.sub Rat.mul Rat.inv in
/-- **C2 (code evaluated at the failing input).** The backend simulate
handler has no `isIncidentActive` guard: on a run that is already
incident-active it succeeds, recomputes the routes with a fresh delay, and
overwrites `originalRoutes` (the stored pre-incident baseline) with the
already-rerouted routes, instead of rejecting with a state error.  (The
only guard in the repository is client-side, in
frontend OptimizationDetail.js `handleSimulateIncident`.) -/
theorem c2_reroute_has_no_state_guard :
    exR1.isIncidentActive = true ∧
    rerouteOptimization exDist exDur 50 0 none exR1
      = Except.ok (getRun (rerouteOptimization exDist exDur 50 0 none exR1)) ∧
    getRun (rerouteOptimization exDist exDur 50 0 none exR1) ≠ exR1 ∧
    (getRun (rerouteOptimization exDist exDur 50 0 none exR1)).originalRoutes
      = some exR1.routes ∧
    exR1.originalRoutes ≠ some exR1.routes := by
  refine ⟨by decide, by decide, by decide, by decide, by decide⟩

/-- **C1 (amended).** For a run created through the normal path (traffic
multiplier 1), simulate-then-resolve restores total distance and total
duration to exactly the pre-incident values: resolve recomputes the routes
with the same deterministic inputs the creation used. -/
theorem c1_resolve_restores_baseline (dist dur : Nat → Nat → ℚ) (vehicles : List Vehicle)
    (locations : List Location) (sh sm : Nat) (d : ℚ) (aidx : Nat) (iloc : Option (ℚ × ℚ))
    (r r' r'' : Run)
    (hc : createOptimization dist dur vehicles locations sh sm false = Except.ok r)
    (hs : rerouteOptimization dist dur d aidx iloc r = Except.ok r')
    (hres : resolveIncident dist dur r' = Except.ok r'') :
    r''.totalDistance = r.totalDistance ∧ r''.totalDuration = r.totalDuration := by
  obtain ⟨depot, hfind, hr⟩ :=
    createOptimization_ok_inv dist dur vehicles locations sh sm false r hc
  obtain ⟨depot', hfind', hr'⟩ := rerouteOptimization_ok_inv dist dur d aidx iloc r r' hs
  obtain ⟨-, depot'', hfind'', hr''⟩ := resolveIncident_ok_inv dist dur r' r'' hres
  rw [hr'] at hfind''
  simp only at hfind''
  rw [hr] at hfind''
  simp only at hfind''
  rw [hfind] at hfind''
  have hdep : depot'' = depot := by simpa using hfind''.symm
  rw [hr'] at hr''
  simp only at hr''
  rw [hr] at hr''
  simp only at hr''
  rw [hdep] at hr''
  rw [hr'', hr]
  simp only
  constructor <;> rfl

/-- The normal-path example run after resolve. -/
def exR2 : Run := getRun (resolveIncident exDist exDur exR1)

unseal Rat.add Rat.sub Rat.mul Rat.inv in
theorem c1_resolve_restores_baseline_witness :
    exR2.totalDistance = exR0.totalDistance ∧ exR2.totalDuration = exR0.totalDuration :=
  c1_resolve_restores_baseline exDist exDur exVehicles exLocs 8 0 100 0 none exR0 exR1 exR2
    (by decide) (by decide) (by decide)

/-- Legacy-path example: a run created WITH an incident type (so with the
1.5 traffic multiplier), then simulated and resolved. -/
def exS0 : Run := getRun (createOptimization exDist exDur exVehicles exLocs 8 0 true)

def exS1 : Run := getRun (rerouteOptimization exDist exDur 100 0 none exS0)

def exS2 : Run := getRun (resolveIncident exDist exDur exS1)

unseal Rat.add Rat.sub Rat.mul Rat.inv in
/-- **C1 counterexample.** A run created through the legacy incident-at-
creation path stores multiplier-1.5 durations (total 120 here); after
simulate and resolve, resolve recomputes with multiplier 1 and gets 90, so
the claimed exact round-trip fails for this incident-active run. -/
theorem c1_counterexample :
    createOptimization exDist exDur exVehicles exLocs 8 0 true = Except.ok exS0 ∧
    rerouteOptimization exDist exDur 100 0 none exS0 = Except.ok exS1 ∧
    exS1.isIncidentActive = true ∧
    resolveIncident exDist exDur exS1 = Except.ok exS2 ∧
    exS0.totalDuration = 120 ∧
    exS2.totalDuration = 90 ∧
    exS2.totalDuration ≠ exS0.totalDuration ∧
    exS2.totalDistance = exS0.totalDistance := by
  refine ⟨by decide, by decide, by decide, by decide, by decide, by decide, by decide, by decide⟩

/-- Any non-numeric coordinate makes `calculateDistance` return 0 — the
guarded early return of part_001 lines 521–526. -/
theorem calculateDistance_invalid (l1 o1 l2 o2 : Option ℚ)
    (h : l1 = none ∨ o1 = none ∨ l2 = none ∨ o2 = none) :
    calculateDistance l1 o1 l2 o2 = 0 := by
  cases l1 <;> cases o1 <;> cases l2 <;> cases o2 <;> simp [calculateDistance] <;> simp at h

theorem mapRange_getD {α : Type} (n : Nat) (f : Nat → α) (dflt : α) (i : Nat) (hi : i < n) :
    ((List.range n).map f).getD i dflt = f i := by
  rw [List.getD_eq_getElem?_getD, List.getElem?_map, List.getElem?_range hi]
  rfl

/-- **C9.** The fallback matrix has zero diagonal; every off-diagonal
entry is the haversine great-circle distance (Earth radius 6371 km,
embedded in `haversineKm`) times the road factor 1.4, with the duration
derived at the 60 km/h fallback speed; and a pair containing a non-numeric
coordinate contributes zero distance (and hence zero duration) — the
computation is a total function, so no input can abort the run. -/
theorem c9_fallback_matrix (locs : List RawCoord) (i j : Nat)
    (hi : i < locs.length) (hj : j < locs.length) :
    (i = j → ((calculateFallbackMatrix locs).1.getD i []).getD j 0 = 0 ∧
      ((calculateFallbackMatrix locs).2.getD i []).getD j 0 = 0) ∧
    (i ≠ j → ∀ (a b c d : ℚ),
      (locs.getD i ⟨none, none⟩).latitude = some a →
      (locs.getD i ⟨none, none⟩).longitude = some b →
      (locs.getD j ⟨none, none⟩).latitude = some c →
      (locs.getD j ⟨none, none⟩).longitude = some d →
      ((calculateFallbackMatrix locs).1.getD i []).getD j 0
          = haversineKm a b c d * ROAD_FACTOR ∧
      ((calculateFallbackMatrix locs).2.getD i []).getD j 0
          = haversineKm a b c d * ROAD_FACTOR / SPEED_KMH * 60) ∧
    (i ≠ j →
      ((locs.getD i ⟨none, none⟩).latitude = none ∨
       (locs.getD i ⟨none, none⟩).longitude = none ∨
       (locs.getD j ⟨none, none⟩).latitude = none ∨
       (locs.getD j ⟨none, none⟩).longitude = none) →
      ((calculateFallbackMatrix locs).1.getD i []).getD j 0 = 0 ∧
      ((calculateFallbackMatrix locs).2.getD i []).getD j 0 = 0) := by
  have hd1 : ((calculateFallbackMatrix locs).1.getD i []).getD j 0
      = if i = j then 0 else fallbackRoadDist locs i j := by
    unfold calculateFallbackMatrix
    dsimp only
    rw [mapRange_getD locs.length _ _ i hi, mapRange_getD locs.length _ _ j hj]
  have hd2 : ((calculateFallbackMatrix locs).2.getD i []).getD j 0
      = if i = j then 0 else fallbackRoadDist locs i j / SPEED_KMH * 60 := by
    unfold calculateFallbackMatrix
    dsimp only
    rw [mapRange_getD locs.length _ _ i hi, mapRange_getD locs.length _ _ j hj]
  refine ⟨?_, ?_, ?_⟩
  · intro hij
    rw [hd1, hd2, if_pos hij, if_pos hij]
    exact ⟨rfl, rfl⟩
  · intro hij a b c d ha hb hc hdd
    rw [hd1, hd2, if_neg hij, if_neg hij]
    have hfr : fallbackRoadDist locs i j = haversineKm a b c d * ROAD_FACTOR := by
      unfold fallbackRoadDist
      rw [ha, hb, hc, hdd]
      rfl
    rw [hfr]
    exact ⟨rfl, rfl⟩
  · intro hij hinv
    rw [hd1, hd2, if_neg hij, if_neg hij]
    have hfr : fallbackRoadDist locs i j = 0 := by
      unfold fallbackRoadDist
      rw [calculateDistance_invalid _ _ _ _ hinv]
      ring
    rw [hfr]
    constructor
    · rfl
    · rw [zero_div, zero_mul]

def exRaw : List RawCoord := [⟨some 0, some 0⟩, ⟨none, some 1⟩]

theorem c9_fallback_matrix_witness :
    ((calculateFallbackMatrix exRaw).1.getD 0 []).getD 1 0 = 0 ∧
    ((calculateFallbackMatrix exRaw).2.getD 0 []).getD 1 0 = 0 :=
  (c9_fallback_matrix exRaw 0 1 (by decide) (by decide)).2.2 (by decide)
    (Or.inr (Or.inr (Or.inl rfl)))
